import Mathlib

/-!
Verification of the MCMP chatbot query-answering pipeline.

This file gives a shallow embedding, in Lean, of the core functions of the
repository — query decomposition and multi-query retrieval with
deduplication (`src/core/engine.py`), graph subgraph extraction and
linearization (`src/core/graph_utils.py`), the structured-data tools
(`src/mcp/tools.py`) and the tool dispatcher (`src/mcp/server.py`) — and
proves or refutes the behavioural claims of the specification against it.

Python dictionaries are modelled as association lists, Python sets as lists
used only through membership, `None`-able values as `Option`, and functions
that can raise as functions into `Except String _`.  Machine-level details
(network calls, files) are modelled by passing the data they would produce
as explicit arguments.
-/

/-! ## Python string primitives -/

/-- Python's `str.strip()` whitespace set (ASCII part): space, tab, newline,
carriage return, vertical tab, form feed. -/
def isPySpace (c : Char) : Bool :=
  c = ' ' || c = '\t' || c = '\n' || c = '\r' || c.val == 11 || c.val == 12

/-- Python `s.strip()`. -/
def pyStrip (s : String) : String :=
  String.mk (((s.data.dropWhile isPySpace).reverse.dropWhile isPySpace).reverse)

/-- `listIsPrefixOf n h` is true when `n` is a prefix of `h`. -/
def listIsPrefixOf : List Char → List Char → Bool
  | [], _ => true
  | _ :: _, [] => false
  | a :: as, b :: bs => a = b && listIsPrefixOf as bs

/-- Python's substring test `needle in hay` (first argument is the haystack). -/
def strContainsSub : (hay needle : List Char) → Bool
  | [], needle => listIsPrefixOf needle []
  | a :: t, needle =>
    if listIsPrefixOf needle (a :: t) then true else strContainsSub t needle

/-- Python `needle in hay` on strings. -/
def pyIn (hay needle : String) : Bool :=
  strContainsSub hay.data needle.data

/-- Splitting a character list at every character satisfying `p`
(the semantics of Python `str.split(sep)` on the separator characters:
consecutive separators yield empty parts, the empty input yields one empty
part). -/
def splitOnPred (p : Char → Bool) : List Char → List (List Char)
  | [] => [[]]
  | c :: cs =>
    match splitOnPred p cs with
    | [] => [[]]
    | r :: rs => if p c then [] :: r :: rs else (c :: r) :: rs

/-- Python `s.split(sep)` with `sep` given as a character predicate. -/
def pySplit (s : String) (p : Char → Bool) : List String :=
  (splitOnPred p s.data).map String.mk

/-- Python `s.lower()` (ASCII case mapping). -/
def pyLower (s : String) : String :=
  String.mk (s.data.map Char.toLower)

/-- Python `s.split()` (split on whitespace runs, no empty parts). -/
def pySplitWs (s : String) : List String :=
  (pySplit s isPySpace).filter (· ≠ "")

theorem listIsPrefixOf_nil_left (h : List Char) : listIsPrefixOf [] h = true := by
  cases h <;> rfl

theorem listIsPrefixOf_append (v w : List Char) :
    listIsPrefixOf v (v ++ w) = true := by
  induction v with
  | nil => exact listIsPrefixOf_nil_left w
  | cons a as ih => simp [listIsPrefixOf, ih]

theorem strContainsSub_of_append (u v w : List Char) :
    strContainsSub (u ++ v ++ w) v = true := by
  induction u with
  | nil =>
    simp only [List.nil_append]
    cases hvw : v ++ w with
    | nil =>
      have hv : v = [] := by cases v <;> simp_all
      subst hv
      simp [strContainsSub, listIsPrefixOf]
    | cons c t =>
      have hp : listIsPrefixOf v (c :: t) = true := hvw ▸ listIsPrefixOf_append v w
      rw [strContainsSub, hp]
      simp
  | cons a as ih =>
    rw [List.cons_append, List.cons_append, strContainsSub]
    split
    · rfl
    · simpa [List.append_assoc] using ih

/-- The empty string is a substring of everything (`"" in s` is `True`). -/
theorem pyIn_empty (s : String) : pyIn s "" = true := by
  have := strContainsSub_of_append [] [] s.data
  simpa [pyIn] using this

theorem pyIn_append (a x b : String) : pyIn (a ++ x ++ b) x = true := by
  simpa [pyIn, String.data_append] using strContainsSub_of_append a.data x.data b.data

/-! ## Retrieval with decomposition (`RAGEngine.retrieve_with_decomposition`)

`src/core/engine.py` lines 96–127.  The vector store reply
`results = self.vs.query(queries, n_results=top_k)` is passed in explicitly
as the three parallel list-of-lists `idss` (`results['ids']`),
`docss` (`results['documents']`) and `metass` (`results['metadatas']`).
Chunk metadata maps are association lists. -/

/-- A metadata map (Python dict with string keys). -/
abbrev Meta := List (String × String)

/-- A retrieved context chunk, exactly the dict built in
`retrieve_with_decomposition`. -/
structure Chunk where
  text : String
  metadata : Meta
  source_query : String
  deriving DecidableEq

/-- The inner loop `for i, doc_id in enumerate(query_ids)` of
`retrieve_with_decomposition`, for one sub-query.  It returns the kept
chunks (each paired with the `doc_id` that admitted it past the seen-set)
together with the updated seen-set. -/
def innerDedup (qText : String) :
    List String → List String → List Meta → Nat → List String →
    List (String × Chunk) × List String
  | [], _, _, _, seen => ([], seen)
  | d :: rest, docs, metas, i, seen =>
    if d ∈ seen then
      innerDedup qText rest docs metas (i + 1) seen
    else
      ((d, ⟨docs.getD i "", metas.getD i [], qText⟩) ::
          (innerDedup qText rest docs metas (i + 1) (d :: seen)).1,
        (innerDedup qText rest docs metas (i + 1) (d :: seen)).2)

/-- The outer loop `for q_idx, query_ids in enumerate(results['ids'])`,
threading the seen-set through the sub-queries in order. -/
def outerDedup (queries : List String) :
    List (List String) → List (List String) → List (List Meta) → Nat →
    List String → List (String × Chunk)
  | [], _, _, _, _ => []
  | ids :: rest, docss, metass, qIdx, seen =>
    if ids = [] then
      outerDedup queries rest docss metass (qIdx + 1) seen
    else
      (innerDedup (queries.getD qIdx "") ids
          (docss.getD qIdx []) (metass.getD qIdx []) 0 seen).1 ++
        outerDedup queries rest docss metass (qIdx + 1)
          (innerDedup (queries.getD qIdx "") ids
            (docss.getD qIdx []) (metass.getD qIdx []) 0 seen).2

/-- `RAGEngine.retrieve_with_decomposition`, with the decomposition result
and the vector-store reply as arguments.  The chunks are the second
components of `outerDedup`'s tracked pairs (the first components record the
`doc_id` each kept chunk was admitted under). -/
def retrieve_with_decomposition (queries : List String)
    (idss docss : List (List String)) (metass : List (List Meta)) : List Chunk :=
  if queries = [] then []
  else (outerDedup queries idss docss metass 0 []).map Prod.snd

theorem innerDedup_fst_mem (q : String) (docs : List String) (metas : List Meta)
    (ids : List String) :
    ∀ (i : Nat) (seen : List String),
      ∀ p ∈ (innerDedup q ids docs metas i seen).1,
        p.1 ∈ ids ∧ p.1 ∉ seen ∧ p.2.source_query = q := by
  induction ids with
  | nil => intro i seen p hp; simp [innerDedup] at hp
  | cons d rest ih =>
    intro i seen p hp
    rw [innerDedup] at hp
    by_cases hd : d ∈ seen
    · rw [if_pos hd] at hp
      obtain ⟨h1, h2, h3⟩ := ih (i + 1) seen p hp
      exact ⟨List.mem_cons_of_mem _ h1, h2, h3⟩
    · rw [if_neg hd] at hp
      rcases List.mem_cons.mp hp with h | h
      · subst h
        exact ⟨List.mem_cons_self _ _, hd, rfl⟩
      · obtain ⟨h1, h2, h3⟩ := ih (i + 1) (d :: seen) p h
        exact ⟨List.mem_cons_of_mem _ h1,
          fun hs => h2 (List.mem_cons_of_mem _ hs), h3⟩

theorem innerDedup_snd_mem (q : String) (docs : List String) (metas : List Meta)
    (ids : List String) :
    ∀ (i : Nat) (seen : List String) (x : String),
      x ∈ (innerDedup q ids docs metas i seen).2 ↔
        x ∈ seen ∨ x ∈ (innerDedup q ids docs metas i seen).1.map Prod.fst := by
  induction ids with
  | nil => intro i seen x; simp [innerDedup]
  | cons d rest ih =>
    intro i seen x
    rw [innerDedup]
    by_cases hd : d ∈ seen
    · rw [if_pos hd]; exact ih (i + 1) seen x
    · rw [if_neg hd]
      constructor
      · intro hx
        rcases (ih (i + 1) (d :: seen) x).mp hx with h | h
        · rcases List.mem_cons.mp h with h | h
          · subst h; right; simp
          · exact Or.inl h
        · right; simp only [List.map_cons]; exact List.mem_cons_of_mem _ h
      · intro hx
        rw [ih (i + 1) (d :: seen) x]
        rcases hx with h | h
        · exact Or.inl (List.mem_cons_of_mem _ h)
        · simp only [List.map_cons, List.mem_cons] at h
          rcases h with h | h
          · subst h; left; exact List.mem_cons_self _ _
          · exact Or.inr h

theorem innerDedup_complete (q : String) (docs : List String) (metas : List Meta)
    (ids : List String) :
    ∀ (i : Nat) (seen : List String) (x : String),
      x ∈ ids → x ∉ seen →
        x ∈ (innerDedup q ids docs metas i seen).1.map Prod.fst := by
  induction ids with
  | nil => intro i seen x hx; simp at hx
  | cons d rest ih =>
    intro i seen x hx hs
    rw [innerDedup]
    by_cases hd : d ∈ seen
    · rw [if_pos hd]
      rcases List.mem_cons.mp hx with h | h
      · subst h; exact absurd hd hs
      · exact ih (i + 1) seen x h hs
    · rw [if_neg hd]
      by_cases hxd : x = d
      · subst hxd; simp
      · rcases List.mem_cons.mp hx with h | h
        · exact absurd h hxd
        · simp only [List.map_cons]
          exact List.mem_cons_of_mem _
            (ih (i + 1) (d :: seen) x h (by simp [hxd, hs]))

theorem innerDedup_fst_nodup (q : String) (docs : List String) (metas : List Meta)
    (ids : List String) :
    ∀ (i : Nat) (seen : List String),
      ((innerDedup q ids docs metas i seen).1.map Prod.fst).Nodup := by
  induction ids with
  | nil => intro i seen; simp [innerDedup]
  | cons d rest ih =>
    intro i seen
    rw [innerDedup]
    by_cases hd : d ∈ seen
    · rw [if_pos hd]; exact ih (i + 1) seen
    · rw [if_neg hd]
      simp only [List.map_cons, List.nodup_cons]
      refine ⟨fun hmem => ?_, ih (i + 1) (d :: seen)⟩
      obtain ⟨p, hp, hpd⟩ := List.mem_map.mp hmem
      obtain ⟨_, h2, _⟩ := innerDedup_fst_mem q docs metas rest (i + 1) (d :: seen) p hp
      exact h2 (hpd ▸ List.mem_cons_self _ _)

theorem outerDedup_mem (queries : List String)
    (docss : List (List String)) (metass : List (List Meta))
    (idss : List (List String)) :
    ∀ (qIdx : Nat) (seen : List String),
      ∀ p ∈ outerDedup queries idss docss metass qIdx seen,
        p.1 ∉ seen ∧ ∃ k, k < idss.length ∧ p.1 ∈ idss.getD k []
          ∧ (∀ k' < k, p.1 ∉ idss.getD k' [])
          ∧ p.2.source_query = queries.getD (qIdx + k) "" := by
  induction idss with
  | nil => intro qIdx seen p hp; simp [outerDedup] at hp
  | cons ids rest ih =>
    intro qIdx seen p hp
    rw [outerDedup] at hp
    by_cases hids : ids = []
    · rw [if_pos hids] at hp
      obtain ⟨hseen, k, hk, hmem, hbefore, hsrc⟩ := ih (qIdx + 1) seen p hp
      refine ⟨hseen, k + 1, by simpa using Nat.succ_lt_succ hk, by simpa using hmem,
        ?_, by rw [hsrc]; congr 1; omega⟩
      intro k' hk'
      cases k' with
      | zero => simp [hids]
      | succ k'' =>
        simpa using hbefore k'' (Nat.lt_of_succ_lt_succ hk')
    · rw [if_neg hids] at hp
      rcases List.mem_append.mp hp with h | h
      · obtain ⟨h1, h2, h3⟩ := innerDedup_fst_mem (queries.getD qIdx "")
          (docss.getD qIdx []) (metass.getD qIdx []) ids 0 seen p h
        exact ⟨h2, 0, Nat.succ_pos _, by simpa using h1,
          fun k' hk' => absurd hk' (Nat.not_lt_zero _), by simpa using h3⟩
      · obtain ⟨hseen', k, hk, hmem, hbefore, hsrc⟩ := ih (qIdx + 1) _ p h
        have hnotseen : p.1 ∉ seen := fun hs =>
          hseen' ((innerDedup_snd_mem _ _ _ ids 0 seen p.1).mpr (Or.inl hs))
        have hnotids : p.1 ∉ ids := fun hi =>
          hseen' ((innerDedup_snd_mem _ _ _ ids 0 seen p.1).mpr
            (Or.inr (innerDedup_complete _ _ _ ids 0 seen p.1 hi hnotseen)))
        refine ⟨hnotseen, k + 1, by simpa using Nat.succ_lt_succ hk,
          by simpa using hmem, ?_, by rw [hsrc]; congr 1; omega⟩
        intro k' hk'
        cases k' with
        | zero => simpa using hnotids
        | succ k'' =>
          simpa using hbefore k'' (Nat.lt_of_succ_lt_succ hk')

theorem outerDedup_fst_nodup (queries : List String)
    (docss : List (List String)) (metass : List (List Meta))
    (idss : List (List String)) :
    ∀ (qIdx : Nat) (seen : List String),
      ((outerDedup queries idss docss metass qIdx seen).map Prod.fst).Nodup := by
  induction idss with
  | nil => intro qIdx seen; simp [outerDedup]
  | cons ids rest ih =>
    intro qIdx seen
    rw [outerDedup]
    by_cases hids : ids = []
    · rw [if_pos hids]; exact ih (qIdx + 1) seen
    · rw [if_neg hids]
      rw [List.map_append, List.nodup_append]
      refine ⟨innerDedup_fst_nodup _ _ _ ids 0 seen, ih (qIdx + 1) _, ?_⟩
      intro x hx hx2
      obtain ⟨p, hp, hpd⟩ := List.mem_map.mp hx2
      obtain ⟨hseen', _⟩ := outerDedup_mem queries docss metass rest (qIdx + 1) _ p hp
      exact hseen' ((innerDedup_snd_mem _ _ _ ids 0 seen p.1).mpr
        (Or.inr (hpd ▸ hx)))

/-- C1: for a question whose decomposition yields at least one sub-query, the
retrieval loop keeps each chunk identifier at most once, and a kept chunk is
the one coming from the earliest sub-query (in decomposition order) whose
result list contains that identifier — its `source_query` is that sub-query.
`retrieve_with_decomposition` returns exactly the chunks of these tracked
pairs. -/
theorem retrieve_dedup_first_query_wins (queries : List String)
    (idss docss : List (List String)) (metass : List (List Meta))
    (hq : queries ≠ []) :
    retrieve_with_decomposition queries idss docss metass
        = (outerDedup queries idss docss metass 0 []).map Prod.snd
    ∧ ((outerDedup queries idss docss metass 0 []).map Prod.fst).Nodup
    ∧ ∀ p ∈ outerDedup queries idss docss metass 0 [],
        ∃ k, k < idss.length ∧ p.1 ∈ idss.getD k []
          ∧ (∀ k' < k, p.1 ∉ idss.getD k' [])
          ∧ p.2.source_query = queries.getD k "" := by
  refine ⟨by rw [retrieve_with_decomposition, if_neg hq],
    outerDedup_fst_nodup queries docss metass idss 0 [], ?_⟩
  intro p hp
  obtain ⟨_, k, hk, hmem, hbefore, hsrc⟩ :=
    outerDedup_mem queries docss metass idss 0 [] p hp
  exact ⟨k, hk, hmem, hbefore, by simpa using hsrc⟩

/-- Witness for C1 at a concrete input: two sub-queries with overlapping
result lists; the shared identifier `"y"` is kept from the first sub-query. -/
theorem retrieve_dedup_first_query_wins_witness :
    (["q1", "q2"] : List String) ≠ [] ∧
      (retrieve_with_decomposition ["q1", "q2"] [["x", "y"], ["y", "z"]]
          [["dx", "dy"], ["dy2", "dz"]] [[[], []], [[], []]]
          = (outerDedup ["q1", "q2"] [["x", "y"], ["y", "z"]]
              [["dx", "dy"], ["dy2", "dz"]] [[[], []], [[], []]] 0 []).map Prod.snd
        ∧ ((outerDedup ["q1", "q2"] [["x", "y"], ["y", "z"]]
            [["dx", "dy"], ["dy2", "dz"]] [[[], []], [[], []]] 0 []).map Prod.fst).Nodup
        ∧ ∀ p ∈ outerDedup ["q1", "q2"] [["x", "y"], ["y", "z"]]
            [["dx", "dy"], ["dy2", "dz"]] [[[], []], [[], []]] 0 [],
            ∃ k, k < ([["x", "y"], ["y", "z"]] : List (List String)).length
              ∧ p.1 ∈ ([["x", "y"], ["y", "z"]] : List (List String)).getD k []
              ∧ (∀ k' < k, p.1 ∉ ([["x", "y"], ["y", "z"]] : List (List String)).getD k' [])
              ∧ p.2.source_query = (["q1", "q2"] : List String).getD k "") :=
  ⟨by decide, retrieve_dedup_first_query_wins ["q1", "q2"]
    [["x", "y"], ["y", "z"]] [["dx", "dy"], ["dy2", "dz"]] [[[], []], [[], []]]
    (by decide)⟩

/-! ## Query decomposition (`RAGEngine.decompose_query`)

`src/core/engine.py` lines 45–94.  The LLM call is a suspension point; its
outcome is passed in as `llm : Except String String` — `.ok text` is the
model's reply, `.error e` is any raised exception (caught by the
`except Exception` handler, which returns `[user_question]`). -/

/-- The parsing of the model reply:
`[q.strip() for q in text.strip().split('\n') if q.strip()]`. -/
def parsedQueries (text : String) : List String :=
  ((pySplit (pyStrip text) (· = '\n')).map pyStrip).filter (· ≠ "")

/-- `RAGEngine.decompose_query`. -/
def decompose_query (user_question : String) (llm : Except String String) :
    List String :=
  match llm with
  | .error _ => [user_question]
  | .ok text =>
    (if user_question ∈ parsedQueries text then parsedQueries text
     else user_question :: parsedQueries text).take 4

/-- C8 counterexample: when the model reply reproduces the question verbatim
only as its fifth line, the question is *not* inserted (it is already
present) and the cap to 4 entries then drops it: the result does not contain
the original question. -/
theorem decompose_query_drops_question :
    decompose_query "Q" (.ok "a\nb\nc\nd\nQ") = ["a", "b", "c", "d"] ∧
      "Q" ∉ decompose_query "Q" (.ok "a\nb\nc\nd\nQ") := by
  decide

/-- C8 (amended): `decompose_query` returns at most 4 sub-queries; on any
LLM exception it returns exactly `[question]`; when the model reply does not
reproduce the question verbatim, the question is inserted at position 0 (and
is then always present); when the reply does contain the question verbatim,
the question survives whenever it occurs among the first four parsed lines. -/
theorem decompose_query_amended (q t e : String) :
    decompose_query q (.error e) = [q]
    ∧ (decompose_query q (.ok t)).length ≤ 4
    ∧ (q ∉ parsedQueries t →
        decompose_query q (.ok t) = q :: (parsedQueries t).take 3)
    ∧ (q ∈ (parsedQueries t).take 4 → q ∈ decompose_query q (.ok t)) := by
  refine ⟨rfl, ?_, ?_, ?_⟩
  · rw [decompose_query]
    split <;> exact List.length_take_le _ _
  · intro h
    rw [decompose_query, if_neg h]
    rfl
  · intro h
    have hmem : q ∈ parsedQueries t := List.take_subset _ _ h
    rw [decompose_query, if_pos hmem]
    exact h

/-- Witness for C8 (amended) at a concrete input. -/
theorem decompose_query_amended_witness :
    decompose_query "Q" (.error "boom") = ["Q"]
    ∧ (decompose_query "Q" (.ok "A\nQ")).length ≤ 4
    ∧ ("Q" ∉ parsedQueries "A\nQ" →
        decompose_query "Q" (.ok "A\nQ") = "Q" :: (parsedQueries "A\nQ").take 3)
    ∧ ("Q" ∈ (parsedQueries "A\nQ").take 4 →
        "Q" ∈ decompose_query "Q" (.ok "A\nQ")) :=
  decompose_query_amended "Q" "A\nQ" "boom"

/-! ## Relationship graph (`GraphUtils`)

`src/core/graph_utils.py`.  A `GraphNode`/`GraphEdge` is a parsed markdown
table row; `_parse_table` fills every header column, defaulting to the empty
string, so the four fields are always present.  The state of a constructed
`GraphUtils` instance is its `nodes` and `edges` lists. -/

structure GraphNode where
  id : String
  name : String
  type : String
  properties : String
  deriving DecidableEq

structure GraphEdge where
  source : String
  target : String
  relationship : String
  properties : String
  deriving DecidableEq

structure Graph where
  nodes : List GraphNode
  edges : List GraphEdge
  deriving DecidableEq

structure Subgraph where
  nodes : List GraphNode
  edges : List GraphEdge
  deriving DecidableEq

/-- The neighbor list of `v` in the adjacency index built by
`_build_adjacency_list`: for each edge with a truthy (non-empty) source and
target, the target is appended to the source's list and the source to the
target's list, in edge order. -/
def adjNeighbors (edges : List GraphEdge) (v : String) : List String :=
  match edges with
  | [] => []
  | e :: rest =>
    (if e.source ≠ "" ∧ e.target ≠ "" then
      (if e.source = v then [e.target] else []) ++
        (if e.target = v then [e.source] else [])
    else []) ++ adjNeighbors rest v

/-- `nodeMatches q n` is the direct-match test of `get_subgraph`: some
whitespace token of the lower-cased query occurs as a substring of the
lower-cased `"{id} {name} {type}"` searchable text. -/
def nodeMatches (query : String) (n : GraphNode) : Bool :=
  (pySplitWs (pyLower query)).any
    (fun term => pyIn (pyLower (n.id ++ " " ++ n.name ++ " " ++ n.type)) term)

/-- The ids of the directly matching nodes (the initial `relevant_nodes`
set; a list used only through membership). -/
def initialMatches (g : Graph) (query : String) : List String :=
  (g.nodes.filter (nodeMatches query)).map (·.id)

/-- The breadth-first expansion loop `for _ in range(max_depth)`:
`relevant` accumulates every id reached, `current` is the frontier. -/
def expandLayers (g : Graph) : List String → List String → Nat → List String
  | relevant, _, 0 => relevant
  | relevant, current, depth + 1 =>
    expandLayers g
      (relevant ++ current.foldr (fun v acc => adjNeighbors g.edges v ++ acc) [])
      (current.foldr (fun v acc => adjNeighbors g.edges v ++ acc) [])
      depth

/-- The reached id set of `GraphUtils.get_subgraph`. -/
def reachedIds (g : Graph) (query : String) (max_depth : Nat) : List String :=
  expandLayers g (initialMatches g query) (initialMatches g query) max_depth

/-- `GraphUtils.get_subgraph`: keep the nodes whose id was reached and the
edges whose both endpoints were reached. -/
def get_subgraph (g : Graph) (query : String) (max_depth : Nat := 1) : Subgraph :=
  { nodes := g.nodes.filter (fun n => n.id ∈ reachedIds g query max_depth)
    edges := g.edges.filter (fun e =>
      e.source ∈ reachedIds g query max_depth ∧
        e.target ∈ reachedIds g query max_depth) }

/-- The node-name lookup dict `{n['id']: n.get('name', n['id'])}` of
`to_natural_language`; a dict comprehension keeps the *last* binding of a
duplicated key, hence the reversed search. -/
def nodeNameMap (nodes : List GraphNode) (v : String) : String :=
  match nodes.reverse.find? (fun n => n.id = v) with
  | some n => n.name
  | none => v

/-- One node line of `to_natural_language`. -/
def nodeLine (n : GraphNode) : String :=
  "- **" ++ n.name ++ "** (" ++ n.type ++ ")" ++
    (if n.properties ≠ "" then ": " ++ n.properties else "")

/-- One edge line of `to_natural_language`. -/
def edgeLine (nodes : List GraphNode) (e : GraphEdge) : String :=
  "- " ++ nodeNameMap nodes e.source ++ " **" ++ e.relationship ++ "** " ++
    nodeNameMap nodes e.target ++
    (if e.properties ≠ "" then " (" ++ e.properties ++ ")" else "")

/-- Python `"\n".join(lines)`. -/
def pyJoin (sep : String) : List String → String
  | [] => ""
  | [x] => x
  | x :: y :: xs => x ++ sep ++ pyJoin sep (y :: xs)

/-- `GraphUtils.to_natural_language`. -/
def to_natural_language (sg : Subgraph) : String :=
  if sg.nodes = [] then ""
  else
    pyJoin "\n"
      (("Institutional Context:" :: sg.nodes.map nodeLine) ++
        (if sg.edges ≠ [] then
          "\nRelationships:" :: sg.edges.map (edgeLine sg.nodes)
        else []))

/-- Two nodes both matched directly by the query "a b", joined by an edge. -/
def nodeA : GraphNode := ⟨"a", "A", "Person", ""⟩

def nodeB : GraphNode := ⟨"b", "B", "Person", ""⟩

def edgeAB : GraphEdge := ⟨"a", "b", "knows", ""⟩

def gTwo : Graph := ⟨[nodeA, nodeB], [edgeAB]⟩

/-- A graph whose single edge dangles: its target `"b"` is no node's id. -/
def gDangling : Graph := ⟨[nodeA], [edgeAB]⟩

/-- C4 counterexample: at depth 0, `get_subgraph` does *not* always return
an empty edge list — when both endpoints of an edge are themselves directly
matched nodes, the edge is returned. -/
theorem get_subgraph_depth0_returns_edge :
    (get_subgraph gTwo "a b" 0).edges = [edgeAB]
    ∧ (get_subgraph gTwo "a b" 0).nodes = [nodeA, nodeB] := by
  decide

/-- C4 (amended): at depth 0 (and node ids being unique, as the data model
requires), `get_subgraph` returns exactly the directly matching nodes —
those whose lower-cased `"{id} {name} {type}"` text contains some whitespace
token of the query — and exactly those edges of the graph both of whose
endpoint ids belong to the directly matched ids (so not necessarily no
edges). -/
theorem get_subgraph_depth0_amended (g : Graph) (q : String)
    (h : (g.nodes.map (·.id)).Nodup) :
    (get_subgraph g q 0).nodes = g.nodes.filter (nodeMatches q)
    ∧ (get_subgraph g q 0).edges = g.edges.filter (fun e =>
        decide (e.source ∈ initialMatches g q ∧ e.target ∈ initialMatches g q)) := by
  have hreach : reachedIds g q 0 = initialMatches g q := rfl
  constructor
  · show g.nodes.filter (fun n => decide (n.id ∈ reachedIds g q 0)) = _
    rw [hreach]
    apply List.filter_congr
    intro n hn
    by_cases hm : nodeMatches q n = true
    · rw [hm, decide_eq_true_eq]
      exact List.mem_map.mpr ⟨n, List.mem_filter.mpr ⟨hn, hm⟩, rfl⟩
    · have hnot : n.id ∉ initialMatches g q := by
        intro hmem
        obtain ⟨m, hmf, hid⟩ := List.mem_map.mp hmem
        obtain ⟨hmg, hmm⟩ := List.mem_filter.mp hmf
        exact hm ((List.inj_on_of_nodup_map h hmg hn hid) ▸ hmm)
      simp [hnot, Bool.not_eq_true] at *
      simp [hm]
  · show g.edges.filter
        (fun e => decide (e.source ∈ reachedIds g q 0 ∧ e.target ∈ reachedIds g q 0)) = _
    rw [hreach]

/-- Witness for C4 (amended) at the concrete two-node graph. -/
theorem get_subgraph_depth0_amended_witness :
    (get_subgraph gTwo "a b" 0).nodes = gTwo.nodes.filter (nodeMatches "a b")
    ∧ (get_subgraph gTwo "a b" 0).edges = gTwo.edges.filter (fun e =>
        decide (e.source ∈ initialMatches gTwo "a b"
          ∧ e.target ∈ initialMatches gTwo "a b")) :=
  get_subgraph_depth0_amended gTwo "a b" (by decide)

/-- C5 counterexample: an edge whose target references no existing node id
*can* appear in a returned subgraph — on `gDangling` with query "a" and
depth 1 the dangling edge is returned while the returned node list contains
no node with id `"b"`. -/
theorem get_subgraph_dangling_edge_returned :
    (get_subgraph gDangling "a" 1).edges = [edgeAB]
    ∧ (get_subgraph gDangling "a" 1).nodes = [nodeA]
    ∧ (get_subgraph gDangling "a" 1).nodes.all (fun n => n.id ≠ "b") = true := by
  decide

/-- C5 (amended): every edge returned by `get_subgraph` has both endpoint
ids in the reached id set, and every endpoint id that references an existing
`GraphNode` has that node in the returned node list; an edge endpoint that
references no existing node id contributes to the adjacency index and never
causes a crash, but the edge may still be returned (with the dangling
endpoint absent from the returned node list). -/
theorem get_subgraph_edge_endpoints (g : Graph) (q : String) (d : Nat)
    (e : GraphEdge) (he : e ∈ (get_subgraph g q d).edges) :
    e ∈ g.edges
    ∧ e.source ∈ reachedIds g q d ∧ e.target ∈ reachedIds g q d
    ∧ (∀ n ∈ g.nodes, n.id = e.source → n ∈ (get_subgraph g q d).nodes)
    ∧ (∀ n ∈ g.nodes, n.id = e.target → n ∈ (get_subgraph g q d).nodes) := by
  obtain ⟨hg, hp⟩ := List.mem_filter.mp he
  rw [decide_eq_true_eq] at hp
  obtain ⟨hs, ht⟩ := hp
  refine ⟨hg, hs, ht, ?_, ?_⟩
  · intro n hn hid
    exact List.mem_filter.mpr ⟨hn, by rw [decide_eq_true_eq, hid]; exact hs⟩
  · intro n hn hid
    exact List.mem_filter.mpr ⟨hn, by rw [decide_eq_true_eq, hid]; exact ht⟩

/-- Witness for C5 (amended) at the dangling-edge graph. -/
theorem get_subgraph_edge_endpoints_witness :
    edgeAB ∈ gDangling.edges
    ∧ edgeAB.source ∈ reachedIds gDangling "a" 1
    ∧ edgeAB.target ∈ reachedIds gDangling "a" 1
    ∧ (∀ n ∈ gDangling.nodes, n.id = edgeAB.source →
        n ∈ (get_subgraph gDangling "a" 1).nodes)
    ∧ (∀ n ∈ gDangling.nodes, n.id = edgeAB.target →
        n ∈ (get_subgraph gDangling "a" 1).nodes) :=
  get_subgraph_edge_endpoints gDangling "a" 1 edgeAB (by decide)

/-! ## Prompt composition (`RAGEngine.generate_response`, lines 136–191)

The composition of the system instruction from persona, date, graph context
and retrieved chunk context.  The persona string and current date are
external inputs (`load_personality()` and `datetime.now().strftime(...)`)
passed in as arguments. -/

/-- Python `meta.get(key, default)` on a chunk metadata dict. -/
def metaGet (m : Meta) (k dflt : String) : String :=
  match m.find? (fun p => p.1 = k) with
  | some p => p.2
  | none => dflt

/-- The per-chunk `formatted_entry` built in `generate_response`. -/
def formatChunk (c : Chunk) : String :=
  "Title: " ++ metaGet c.metadata "title" "Untitled" ++
    "\nSource URL: " ++ metaGet c.metadata "url" "No URL available" ++
    (if metaGet c.metadata "meta_role" "" ≠ "" then
      "\nRole: " ++ metaGet c.metadata "meta_role" "" else "") ++
    "\nContent: " ++ c.text ++
    (if (metaGet c.metadata "meta_description" "").length > 50 then
      "\nDescription: " ++ metaGet c.metadata "meta_description" "" else "") ++
    (if (metaGet c.metadata "meta_abstract" "").length > 50 then
      "\nAbstract: " ++ metaGet c.metadata "meta_abstract" "" else "")

/-- `context_text = "\n\n---\n\n".join(formatted_context)`. -/
def contextTextOf (chunks : List Chunk) : String :=
  pyJoin "\n\n---\n\n" (chunks.map formatChunk)

/-- The graph context text with its fallback
(`if not graph_context_text: ... = "No specific institutional relationships
found."`). -/
def graphContextTextOf (g : Graph) (query : String) : String :=
  if to_natural_language (get_subgraph g query) = "" then
    "No specific institutional relationships found."
  else to_natural_language (get_subgraph g query)

/-- The `system_instruction` f-string of `generate_response`. -/
def systemInstruction (personality current_date : String)
    (chunks : List Chunk) (g : Graph) (query : String) : String :=
  personality ++ "\n\n---\nCurrent Date: " ++ current_date ++
    "\n---\n### INSTITUTIONAL CONTEXT (GRAPH):\n" ++
    graphContextTextOf g query ++
    "\n---\n### CONTEXT FROM MCMP WEBSITE:\n" ++
    contextTextOf chunks ++ "\n---\n"

theorem pyIn_of_append_eq (s a x b : String) (h : s = a ++ x ++ b) :
    pyIn s x = true := h ▸ pyIn_append a x b

/-- The empty graph. -/
def gEmpty : Graph := ⟨[], []⟩

/-- C9 counterexample: with no retrieved chunks the composed system
instruction contains an *empty* website-context section between its
separators (`"### CONTEXT FROM MCMP WEBSITE:\n\n---\n"`), not a placeholder
— only the graph section receives a fallback text. -/
theorem systemInstruction_empty_chunks_no_placeholder :
    systemInstruction "PERSONA" "DATE" [] gEmpty "x"
        = "PERSONA\n\n---\nCurrent Date: DATE\n---\n" ++
          "### INSTITUTIONAL CONTEXT (GRAPH):\n" ++
          "No specific institutional relationships found.\n---\n" ++
          "### CONTEXT FROM MCMP WEBSITE:\n\n---\n"
    ∧ pyIn (systemInstruction "PERSONA" "DATE" [] gEmpty "x")
        "### CONTEXT FROM MCMP WEBSITE:\n\n---\n" = true := by
  constructor
  · decide
  · decide

/-- C9 (amended): the composed system instruction never drops a non-empty
input section — the persona, the graph-context text (or its explicit
fallback sentence when the graph context is empty) and the concatenated
chunk contexts each occur verbatim in it — but the website-context section
of an empty chunk list is the empty string between its separators, with no
placeholder. -/
theorem systemInstruction_sections (personality current_date : String)
    (chunks : List Chunk) (g : Graph) (query : String) :
    (to_natural_language (get_subgraph g query) = "" →
      pyIn (systemInstruction personality current_date chunks g query)
        "No specific institutional relationships found." = true)
    ∧ (to_natural_language (get_subgraph g query) ≠ "" →
      pyIn (systemInstruction personality current_date chunks g query)
        (to_natural_language (get_subgraph g query)) = true)
    ∧ pyIn (systemInstruction personality current_date chunks g query)
        (contextTextOf chunks) = true
    ∧ pyIn (systemInstruction personality current_date chunks g query)
        personality = true := by
  refine ⟨?_, ?_, ?_, ?_⟩
  · intro h
    apply pyIn_of_append_eq _
      (personality ++ "\n\n---\nCurrent Date: " ++ current_date ++
        "\n---\n### INSTITUTIONAL CONTEXT (GRAPH):\n") _
      ("\n---\n### CONTEXT FROM MCMP WEBSITE:\n" ++ contextTextOf chunks ++ "\n---\n")
    rw [systemInstruction, graphContextTextOf, if_pos h]
    simp only [String.append_assoc]
  · intro h
    apply pyIn_of_append_eq _
      (personality ++ "\n\n---\nCurrent Date: " ++ current_date ++
        "\n---\n### INSTITUTIONAL CONTEXT (GRAPH):\n") _
      ("\n---\n### CONTEXT FROM MCMP WEBSITE:\n" ++ contextTextOf chunks ++ "\n---\n")
    rw [systemInstruction, graphContextTextOf, if_neg h]
    simp only [String.append_assoc]
  · apply pyIn_of_append_eq _
      (personality ++ "\n\n---\nCurrent Date: " ++ current_date ++
        "\n---\n### INSTITUTIONAL CONTEXT (GRAPH):\n" ++
        graphContextTextOf g query ++ "\n---\n### CONTEXT FROM MCMP WEBSITE:\n") _
      "\n---\n"
    rw [systemInstruction]
  · apply pyIn_of_append_eq _ "" _
      ("\n\n---\nCurrent Date: " ++ current_date ++
        "\n---\n### INSTITUTIONAL CONTEXT (GRAPH):\n" ++
        graphContextTextOf g query ++
        "\n---\n### CONTEXT FROM MCMP WEBSITE:\n" ++
        contextTextOf chunks ++ "\n---\n")
    rw [systemInstruction]
    simp only [String.append_assoc, String.empty_append]

/-- Witness for C9 (amended) at a concrete input with one chunk and the
empty graph. -/
theorem systemInstruction_sections_witness :
    (to_natural_language (get_subgraph gEmpty "x") = "" →
      pyIn (systemInstruction "P" "D" [⟨"hello", [], "q"⟩] gEmpty "x")
        "No specific institutional relationships found." = true)
    ∧ (to_natural_language (get_subgraph gEmpty "x") ≠ "" →
      pyIn (systemInstruction "P" "D" [⟨"hello", [], "q"⟩] gEmpty "x")
        (to_natural_language (get_subgraph gEmpty "x")) = true)
    ∧ pyIn (systemInstruction "P" "D" [⟨"hello", [], "q"⟩] gEmpty "x")
        (contextTextOf [⟨"hello", [], "q"⟩]) = true
    ∧ pyIn (systemInstruction "P" "D" [⟨"hello", [], "q"⟩] gEmpty "x") "P" = true :=
  systemInstruction_sections "P" "D" [⟨"hello", [], "q"⟩] gEmpty "x"

/-! ## Structured-data tools (`src/mcp/tools.py`)

The JSON record files (`people.json`, `raw_events.json`, …) are passed in as
explicit lists.  Fields the code reads with a falsy-able `dict.get(key)` are
`Option String`; fields read with a `.get(key, "")`-style default are plain
strings. -/

/-- A person record of `people.json`, with the metadata keys `search_people`
reads. -/
structure Person where
  name : String
  description : String
  url : Option String
  image_url : Option String
  role : Option String
  position : Option String
  chair : Option String
  email : Option String
  phone : Option String
  room : Option String
  website : Option String
  research_interests_text : Option String
  deriving DecidableEq

/-- The result record `search_people` appends for a matching person. -/
structure PersonOut where
  name : String
  role : String
  chair : String
  url : Option String
  image_url : Option String
  email : Option String
  phone : Option String
  room : Option String
  website : Option String
  description : String
  research_interests : String
  deriving DecidableEq

/-- Python `a or b or "Unknown"` over possibly-missing, possibly-empty
metadata strings (`None` and `""` are both falsy). -/
def pyOrUnknown (a b : Option String) : String :=
  match a with
  | some s => if s ≠ "" then s else pyOrUnknown' b
  | none => pyOrUnknown' b
where pyOrUnknown' : Option String → String
  | some s => if s ≠ "" then s else "Unknown"
  | none => "Unknown"

/-- The `role` string used for role filtering: `metadata.get("role", "")`,
falling back to `metadata.get("position", "")` when falsy, lower-cased. -/
def personRoleText (p : Person) : String :=
  pyLower (if p.role.getD "" ≠ "" then p.role.getD "" else p.position.getD "")

/-- The output record built for one matching person. -/
def personOut (p : Person) : PersonOut :=
  { name := p.name
    role := pyOrUnknown p.role p.position
    chair := p.chair.getD "Unknown"
    url := p.url
    image_url := p.image_url
    email := p.email
    phone := p.phone
    room := p.room
    website := p.website
    description := p.description
    research_interests := p.research_interests_text.getD "" }


/-- The per-person test of `search_people`'s loop: the optional role filter
(`role_filter.lower() not in role` skips), then the text query
(`query in name or query in desc` appends). -/
def personFilter (q : String) (rf : Option String) (p : Person) : Bool :=
  (match rf with
   | some r => pyIn (personRoleText p) r
   | none => true)
  && (pyIn (pyLower p.name) q || pyIn (pyLower p.description) q)

/-- `search_people`: case-insensitive substring match of the query against
name and description, optional substring role filter
(`role_filter.lower() if role_filter else None` — an empty filter string is
falsy and means no filter), capped at 10 results in data-file order. -/
def search_people (people : List Person) (query : String)
    (role_filter : Option String) : List PersonOut :=
  ((people.filter (personFilter (pyLower query)
      (match role_filter with
       | some r => if r ≠ "" then some (pyLower r) else none
       | none => none))).map personOut).take 10

/-- C10: with the empty query and no role filter every person matches (the
empty substring is in every lower-cased name), so `search_people` returns
the first `min(10, N)` person records, in the order of the underlying data
file. -/
theorem search_people_empty_query (people : List Person) :
    search_people people "" none = (people.map personOut).take 10
    ∧ (search_people people "" none).length = min 10 people.length := by
  have hlower : pyLower "" = "" := rfl
  have hfil : ∀ p : Person, personFilter (pyLower "") none p = true := by
    intro p
    simp [personFilter, hlower, pyIn_empty]
  have e1 : search_people people "" none
      = ((people.filter (personFilter (pyLower "") none)).map personOut).take 10 := rfl
  have e2 : people.filter (personFilter (pyLower "") none) = people :=
    List.filter_eq_self.mpr fun a _ => hfil a
  constructor
  · rw [e1, e2]
  · rw [e1, e2, List.length_take, List.length_map]

/-! ## Event lookup (`get_events`, `src/mcp/tools.py` lines 87–180)

Dates are `datetime.strptime(s, "%Y-%m-%d")` values, modelled as
year/month/day triples; `datetime.now()` is modelled as a date plus the
number of seconds elapsed since its midnight (its time-of-day part). -/

structure PyDate where
  y : Nat
  m : Nat
  d : Nat
  deriving DecidableEq

/-- `datetime` comparison for two midnight timestamps. -/
def dateLt (a b : PyDate) : Bool :=
  if a.y < b.y then true
  else if b.y < a.y then false
  else if a.m < b.m then true
  else if b.m < a.m then false
  else a.d < b.d

/-- `datetime.now()`: its calendar date and its time of day in seconds. -/
structure PyDateTime where
  date : PyDate
  secs : Nat
  deriving DecidableEq

def isLeapYear (y : Nat) : Bool :=
  y % 4 = 0 && (y % 100 ≠ 0 || y % 400 = 0)

def daysInMonth (y m : Nat) : Nat :=
  if m = 2 then (if isLeapYear y then 29 else 28)
  else if m = 4 ∨ m = 6 ∨ m = 9 ∨ m = 11 then 30
  else 31

/-- Decimal digits only, non-empty (the `\d…` pieces of strptime's regex). -/
def decNat? (s : String) : Option Nat :=
  if s ≠ "" && s.data.all Char.isDigit then
    some (s.data.foldl (fun n c => n * 10 + (c.toNat - 48)) 0)
  else none

/-- `datetime.strptime(s, "%Y-%m-%d")`: exactly three dash-separated
fields, a 4-digit year, a 1–2-digit month in 1..12, a 1–2-digit day in
1..31 further validated against the month length; `none` models the
`ValueError` the callers catch. -/
def parseDateYMD (s : String) : Option PyDate :=
  match pySplit s (· = '-') with
  | [ys, ms, ds] =>
    match decNat? ys, decNat? ms, decNat? ds with
    | some y, some m, some d =>
      if ys.length = 4 ∧ (ms.length = 1 ∨ ms.length = 2)
          ∧ (ds.length = 1 ∨ ds.length = 2)
          ∧ 1 ≤ m ∧ m ≤ 12 ∧ 1 ≤ d ∧ d ≤ daysInMonth y m then
        some ⟨y, m, d⟩
      else none
    | _, _, _ => none
  | _ => none

/-- Proleptic Gregorian day number (`datetime.date.toordinal`), used for
the `(evt_date - today).days` arithmetic of the `this_week` preset. -/
def dateOrdinal (dt : PyDate) : Nat :=
  let py := dt.y - 1
  let before :=
    (List.range (dt.m - 1)).foldl (fun acc i => acc + daysInMonth dt.y (i + 1)) 0
  365 * py + py / 4 - py / 100 + py / 400 + before + dt.d

/-- An event record of `raw_events.json`, with the fields `get_events`
reads (`metadata.date` etc. are `dict.get` lookups, hence optional). -/
structure EventIn where
  title : String
  abstract : String
  description : String
  date : Option String
  time_start : Option String
  time_end : Option String
  location : String
  speaker : Option String
  url : Option String
  deriving DecidableEq

/-- The result dict `get_events` appends; its `date` value is the raw
`metadata.get("date")`, possibly `None`. -/
structure EventOut where
  title : String
  date : Option String
  time : String
  location : String
  speaker : Option String
  url : Option String
  abstract : String
  description : String
  deriving DecidableEq

/-- Python's f-string rendering of a possibly-`None` value. -/
def pyShow : Option String → String
  | some s => s
  | none => "None"

def eventOut (ev : EventIn) : EventOut :=
  { title := ev.title
    date := ev.date
    time := pyShow ev.time_start ++ " - " ++ pyShow ev.time_end
    location := ev.location
    speaker := ev.speaker
    url := ev.url
    abstract := ev.abstract
    description := ev.description }

/-- The relative-preset date filter (the `else` branch taken when no
explicit bound parsed): `upcoming` (also the default) keeps
`evt_date >= now`, `today` keeps same-day events, `this_week` keeps
`0 <= (evt_date - now).days <= 7`. -/
def presetKeeps (now : PyDateTime) (date_range : Option String)
    (evd : PyDate) : Bool :=
  (if date_range = some "today" then decide (evd = now.date) else true)
  && (if date_range = some "upcoming" ∨ date_range = none then
        !(dateLt evd now.date || (evd = now.date && decide (0 < now.secs)))
      else true)
  && (if date_range = some "this_week" then
        (let delta : Int := (dateOrdinal evd : Int) - (dateOrdinal now.date : Int)
          - (if 0 < now.secs then 1 else 0)
         decide (0 ≤ delta ∧ delta ≤ 7))
      else true)

/-- The per-event test of `get_events`'s loop: free-text query filter, type
filter, then the date filter — explicit parsed `start_date`/`end_date`
bounds take precedence over the presets; an event with a missing, empty or
unparsable date passes every date filter (fail-open). -/
def eventPasses (now : PyDateTime) (date_range type_filter start_date end_date
    query : Option String) (ev : EventIn) : Bool :=
  (match query with
   | some q =>
     if q = "" then true
     else pyIn (pyLower (ev.title ++ " " ++ ev.abstract ++ " " ++ ev.description))
       (pyLower q)
   | none => true)
  && (match type_filter with
      | some tf => if tf = "" then true else pyIn (pyLower ev.title) (pyLower tf)
      | none => true)
  && (match ev.date with
      | none => true
      | some dstr =>
        if dstr = "" then true
        else
          match parseDateYMD dstr with
          | none => true
          | some evd =>
            if (start_date.bind parseDateYMD).isSome
                || (end_date.bind parseDateYMD).isSome then
              (match start_date.bind parseDateYMD with
               | some s => !(dateLt evd s)
               | none => true)
              && (match end_date.bind parseDateYMD with
                  | some e => !(dateLt e evd)
                  | none => true)
            else presetKeeps now date_range evd)

/-- The `list.sort` key `x.get("date", "9999-99-99")`: the `"date"` key is
always present in the built dict, so the default never applies and the key
is the stored value, possibly `None`. -/
def eventSortKey (r : EventOut) : String :=
  (r.date).getD "9999-99-99"

/-- Python string `<` (lexicographic on code points). -/
def pyStrLt : List Char → List Char → Bool
  | [], [] => false
  | [], _ :: _ => true
  | _ :: _, [] => false
  | a :: as, b :: bs =>
    if a.val < b.val then true
    else if b.val < a.val then false
    else pyStrLt as bs

/-- Stable insertion of `r` into an already sorted list: `r` goes before
the first element whose key is not strictly smaller (the stability contract
of Python's sort). -/
def insertByKey (r : EventOut) : List EventOut → List EventOut
  | [] => [r]
  | s :: ss =>
    if pyStrLt (eventSortKey s).data (eventSortKey r).data then
      s :: insertByKey r ss
    else r :: s :: ss

/-- Stable ascending sort by the date key (Python `list.sort(key=...)`
restricted to the raise-free case where every key is a string). -/
def sortByDateKey : List EventOut → List EventOut
  | [] => []
  | r :: rs => insertByKey r (sortByDateKey rs)

/-- `get_events`.  `results.sort(...)` compares the raw `"date"` values:
with at least two results and some `None` date among them, Python raises
`TypeError` (comparing `NoneType` with `str`), modelled as `.error`;
otherwise the filtered results are sorted ascending by date string and
capped at 10. -/
def get_events (events : List EventIn) (now : PyDateTime)
    (date_range type_filter start_date end_date query : Option String) :
    Except String (List EventOut) :=
  let results := (events.filter
    (eventPasses now date_range type_filter start_date end_date query)).map eventOut
  if 2 ≤ results.length ∧ results.any (fun r => r.date.isNone) then
    .error "TypeError: '<' not supported between instances of 'NoneType' and 'str'"
  else
    .ok ((sortByDateKey results).take 10)

theorem eventPasses_dateRange_indep (now : PyDateTime)
    (dr dr' tf sd ed q : Option String) (ev : EventIn)
    (hex : (sd.bind parseDateYMD).isSome ∨ (ed.bind parseDateYMD).isSome) :
    eventPasses now dr tf sd ed q ev = eventPasses now dr' tf sd ed q ev := by
  have hcond : ((sd.bind parseDateYMD).isSome || (ed.bind parseDateYMD).isSome) = true := by
    rcases hex with h | h <;> simp [h]
  rw [eventPasses.eq_def, eventPasses.eq_def]
  congr 1
  cases hdate : ev.date with
  | none => rfl
  | some dstr =>
    by_cases hds : dstr = ""
    · simp [hds]
    · simp only [if_neg hds]
      cases hp : parseDateYMD dstr with
      | none => rfl
      | some evd => simp [hcond]

/-- A fixed reference `datetime.now()` (midnight, 2026-01-01). -/
def now0 : PyDateTime := ⟨⟨2026, 1, 1⟩, 0⟩

/-- An event dated 2026-02-15. -/
def evFeb : EventIn := ⟨"Talk B", "", "", some "2026-02-15", none, none, "", none, none⟩

/-- An event dated 2026-03-01. -/
def evMarch : EventIn := ⟨"Talk A", "", "", some "2026-03-01", none, none, "", none, none⟩

/-- An event with no date in its metadata. -/
def evNoDate : EventIn := ⟨"Talk C", "", "", none, none, none, "", none, none⟩

/-- C6: when an explicit `start_date` or `end_date` parses, the relative
`date_range` presets are ignored (the result does not depend on
`date_range` at all); with no text or type filter, an event with a parsable
date passes the filter iff its date lies within the parsed bounds; in
particular with `start_date="2026-02-01"`, `end_date="2026-02-28"` the event
dated 2026-03-01 is excluded and the one dated 2026-02-15 is included. -/
theorem get_events_explicit_dates (events : List EventIn) (now : PyDateTime)
    (dr dr' tf sd ed q : Option String)
    (hex : (sd.bind parseDateYMD).isSome ∨ (ed.bind parseDateYMD).isSome) :
    get_events events now dr tf sd ed q = get_events events now dr' tf sd ed q
    ∧ (∀ ev ∈ events, ∀ dstr evd, ev.date = some dstr →
        parseDateYMD dstr = some evd → q = none → tf = none →
        (eventPasses now dr tf sd ed q ev = true ↔
          (∀ s, sd.bind parseDateYMD = some s → dateLt evd s = false)
          ∧ (∀ e, ed.bind parseDateYMD = some e → dateLt e evd = false)))
    ∧ get_events [evMarch, evFeb] now0 none none
        (some "2026-02-01") (some "2026-02-28") none = .ok [eventOut evFeb] := by
  have hcond : ((sd.bind parseDateYMD).isSome || (ed.bind parseDateYMD).isSome) = true := by
    rcases hex with h | h <;> simp [h]
  refine ⟨?_, ?_, by rfl⟩
  · rw [get_events, get_events,
      List.filter_congr (fun ev _ => eventPasses_dateRange_indep now dr dr' tf sd ed q ev hex)]
  · intro ev hev dstr evd hdate hparse hq htf
    subst hq htf
    rw [eventPasses.eq_def, hdate]
    have hds : dstr ≠ "" := by
      intro h
      rw [h] at hparse
      simp [parseDateYMD, pySplit, splitOnPred] at hparse
    simp only [if_neg hds, hparse, hcond, if_true, Bool.true_and]
    cases hsd : sd.bind parseDateYMD with
    | none =>
      cases hed : ed.bind parseDateYMD with
      | none => rw [hsd, hed] at hcond; simp at hcond
      | some e => simp [Bool.not_eq_true']
    | some s =>
      cases hed : ed.bind parseDateYMD with
      | none => simp [Bool.not_eq_true']
      | some e => simp [Bool.not_eq_true']

/-- Witness for C6 at a concrete input: one event in the window, one after
it, explicit bounds February 2026, two different presets. -/
theorem get_events_explicit_dates_witness :
    get_events [evMarch, evFeb] now0 (some "upcoming") none
        (some "2026-02-01") (some "2026-02-28") none
      = get_events [evMarch, evFeb] now0 (some "today") none
        (some "2026-02-01") (some "2026-02-28") none
    ∧ (∀ ev ∈ [evMarch, evFeb], ∀ dstr evd, ev.date = some dstr →
        parseDateYMD dstr = some evd → (none : Option String) = none →
        (none : Option String) = none →
        (eventPasses now0 (some "upcoming") none
            (some "2026-02-01") (some "2026-02-28") none ev = true ↔
          (∀ s, (some "2026-02-01" : Option String).bind parseDateYMD = some s →
            dateLt evd s = false)
          ∧ (∀ e, (some "2026-02-28" : Option String).bind parseDateYMD = some e →
            dateLt e evd = false)))
    ∧ get_events [evMarch, evFeb] now0 none none
        (some "2026-02-01") (some "2026-02-28") none = .ok [eventOut evFeb] :=
  get_events_explicit_dates [evMarch, evFeb] now0 (some "upcoming") (some "today")
    none (some "2026-02-01") (some "2026-02-28") none (Or.inl (by decide))

/-- C7 (code bug exhibit): `get_events` does *not* always sort without
raising — the sort key `x.get("date", "9999-99-99")` is the stored `"date"`
value, which is always present but may be `None`; with one undated and one
dated event both passing the filters, Python's sort compares `None` with a
string and raises `TypeError`. -/
theorem get_events_sort_raises_on_missing_date :
    get_events [evNoDate, evFeb] now0 none none (some "2026-01-01") none none
      = .error
        "TypeError: '<' not supported between instances of 'NoneType' and 'str'" := by
  rfl

/-! ## Research lookup and the MCP server (`src/mcp/tools.py`,
`src/mcp/server.py`) -/

/-- A research-area record of `research.json`, with the fields
`search_research` reads. -/
structure ResearchArea where
  name : String
  description : Option String
  people : List String
  subtopics : List String
  deriving DecidableEq

/-- The result record `search_research` appends. -/
structure ResearchOut where
  area : String
  description : Option String
  people_count : Nat
  subtopics : List String
  deriving DecidableEq

def researchOut (a : ResearchArea) : ResearchOut :=
  ⟨a.name, a.description, a.people.length, a.subtopics⟩

/-- `search_research`: keep every area when no (or an empty, falsy) topic is
given, else substring-match the lower-cased topic against the lower-cased
area name. -/
def search_research (research : List ResearchArea) (topic : Option String) :
    List ResearchOut :=
  (research.filter (fun area =>
    (match topic with
     | none => true
     | some t => decide (t = ""))
    || pyIn (pyLower area.name)
        (match topic with
         | some t => pyLower t
         | none => ""))).map researchOut

/-- Modelled from the spec: `search_graph` is imported from
`src/mcp/tools.py` by `src/mcp/server.py` and registered in the tool table,
but its definition is not present under `src/` (only its import, schema and
tests are).  Per §4.2 of the spec it is a convenience wrapper returning
`GraphIndex.to_text(GraphIndex.subgraph(query))` with a fixed fallback
string when the result is empty; the test suite
(`tests/test_mcp.py::test_search_graph`) requires the fallback to contain
"No institutional relationships found". -/
def search_graph (g : Graph) (query : String) : String :=
  if to_natural_language (get_subgraph g query) = "" then
    "No institutional relationships found."
  else to_natural_language (get_subgraph g query)

/-- The value a successful tool call returns. -/
inductive ToolValue where
  | people (rs : List PersonOut)
  | research (rs : List ResearchOut)
  | events (rs : List EventOut)
  | text (s : String)
  deriving DecidableEq

/-- The observable outcome of `MCPServer.call_tool`: an uncaught exception
propagating out of the method (`raised`), the `{"error": str(e)}` dict a
caught tool exception is converted to (`errorResult`), or a tool value. -/
inductive CallResult where
  | raised (msg : String)
  | errorResult (msg : String)
  | value (v : ToolValue)
  deriving DecidableEq

/-- The read-only data environment behind the four registered tools. -/
structure ToolEnv where
  people : List Person
  research : List ResearchArea
  events : List EventIn
  graph : Graph
  now : PyDateTime

/-- A JSON argument object for a tool call (all declared tool parameters
are strings). -/
abbrev ToolArgs := List (String × String)

def argLookup (args : ToolArgs) (k : String) : Option String :=
  (args.find? (fun p => p.1 = k)).map (·.2)

/-- `tool_func(**arguments)` rejects unexpected keyword arguments with a
`TypeError` (caught by `call_tool`'s handler). -/
def argsOk (args : ToolArgs) (allowed : List String) : Bool :=
  args.all (fun p => p.1 ∈ allowed)

/-- The keys of the `self.tools` registry dict of `MCPServer.__init__`. -/
def toolNames : List String :=
  ["search_people", "search_research", "get_events", "search_graph"]

/-- `MCPServer.call_tool`: an unknown name raises
`ValueError(f"Tool {name} not found")` *before* the `try` block; for a
registered name, `tool_func(**arguments)` runs inside `try`, and any
exception it raises (bad keyword arguments, a missing required argument, or
the sort `TypeError` of `get_events`) is caught and converted to the
`{"error": str(e)}` result. -/
def call_tool (env : ToolEnv) (name : String) (args : ToolArgs) : CallResult :=
  if name = "search_people" then
    if ¬ argsOk args ["query", "role_filter"] then
      .errorResult "TypeError: unexpected keyword argument"
    else match argLookup args "query" with
      | none => .errorResult
          "TypeError: search_people() missing 1 required positional argument: 'query'"
      | some q => .value (.people (search_people env.people q (argLookup args "role_filter")))
  else if name = "search_research" then
    if ¬ argsOk args ["topic"] then
      .errorResult "TypeError: unexpected keyword argument"
    else .value (.research (search_research env.research (argLookup args "topic")))
  else if name = "get_events" then
    if ¬ argsOk args ["date_range", "type_filter", "start_date", "end_date", "query"] then
      .errorResult "TypeError: unexpected keyword argument"
    else match get_events env.events env.now (argLookup args "date_range")
        (argLookup args "type_filter") (argLookup args "start_date")
        (argLookup args "end_date") (argLookup args "query") with
      | .error e => .errorResult e
      | .ok rs => .value (.events rs)
  else if name = "search_graph" then
    if ¬ argsOk args ["query"] then
      .errorResult "TypeError: unexpected keyword argument"
    else match argLookup args "query" with
      | none => .errorResult
          "TypeError: search_graph() missing 1 required positional argument: 'query'"
      | some q => .value (.text (search_graph env.graph q))
  else .raised ("Tool " ++ name ++ " not found")

/-- An empty concrete data environment. -/
def envEmpty : ToolEnv := ⟨[], [], [], gEmpty, now0⟩

/-- C2 counterexample: `call_tool("unknown_tool", {})` does *not* return an
error result — it raises `ValueError("Tool unknown_tool not found")` (the
`raise` sits before the `try` block, so it is not converted). -/
theorem call_tool_unknown_tool_raises :
    call_tool envEmpty "unknown_tool" [] = .raised "Tool unknown_tool not found" := by
  rfl

/-- C2 (amended): for a name *not* in the registry, `call_tool` raises
`ValueError(f"Tool {name} not found")` (an exception, not an error result);
for every registered name the call never lets an exception escape — any
exception of the tool body is caught and converted to an `{"error": ...}`
result. -/
theorem call_tool_amended (env : ToolEnv) (name : String) (args : ToolArgs) :
    (name ∉ toolNames →
      call_tool env name args = .raised ("Tool " ++ name ++ " not found"))
    ∧ (name ∈ toolNames → ∀ m, call_tool env name args ≠ .raised m) := by
  constructor
  · intro h
    simp only [toolNames, List.mem_cons, List.not_mem_nil, or_false, not_or] at h
    obtain ⟨h1, h2, h3, h4⟩ := h
    rw [call_tool, if_neg h1, if_neg h2, if_neg h3, if_neg h4]
  · intro h m hcontra
    simp only [toolNames, List.mem_cons, List.not_mem_nil, or_false] at h
    rcases h with h | h | h | h <;> subst h
    · unfold call_tool at hcontra
      rw [if_pos rfl] at hcontra
      split at hcontra
      · exact CallResult.noConfusion hcontra
      · split at hcontra <;> exact CallResult.noConfusion hcontra
    · unfold call_tool at hcontra
      rw [if_neg (by decide), if_pos rfl] at hcontra
      split at hcontra <;> exact CallResult.noConfusion hcontra
    · unfold call_tool at hcontra
      rw [if_neg (by decide), if_neg (by decide), if_pos rfl] at hcontra
      split at hcontra
      · exact CallResult.noConfusion hcontra
      · split at hcontra <;> exact CallResult.noConfusion hcontra
    · unfold call_tool at hcontra
      rw [if_neg (by decide), if_neg (by decide), if_neg (by decide),
        if_pos rfl] at hcontra
      split at hcontra
      · exact CallResult.noConfusion hcontra
      · split at hcontra <;> exact CallResult.noConfusion hcontra

/-- Witness for C2 (amended): the unknown name raises; a registered name
never raises. -/
theorem call_tool_amended_witness :
    call_tool envEmpty "unknown_tool" []
        = .raised ("Tool " ++ "unknown_tool" ++ " not found")
    ∧ ∀ m, call_tool envEmpty "search_people" [] ≠ .raised m :=
  ⟨(call_tool_amended envEmpty "unknown_tool" []).1 (by decide),
    (call_tool_amended envEmpty "search_people" []).2 (by decide)⟩

/-- C3: `search_graph` is a registered callable tool; calling it through
the dispatcher returns `to_text(subgraph(query))`, and when the linearized
subgraph is empty it returns the fixed fallback string, which contains
"No institutional relationships found". -/
theorem search_graph_tool (env : ToolEnv) (q : String) :
    call_tool env "search_graph" [("query", q)]
        = .value (.text (search_graph env.graph q))
    ∧ (to_natural_language (get_subgraph env.graph q) = "" →
        pyIn (search_graph env.graph q) "No institutional relationships found" = true)
    ∧ (to_natural_language (get_subgraph env.graph q) ≠ "" →
        search_graph env.graph q = to_natural_language (get_subgraph env.graph q)) := by
  refine ⟨rfl, ?_, ?_⟩
  · intro h
    rw [search_graph, if_pos h]
    exact pyIn_of_append_eq _ "" _ "." (by decide)
  · intro h
    rw [search_graph, if_neg h]

/-- Witness for C3 at the empty environment. -/
theorem search_graph_tool_witness :
    call_tool envEmpty "search_graph" [("query", "x")]
        = .value (.text (search_graph envEmpty.graph "x"))
    ∧ (to_natural_language (get_subgraph envEmpty.graph "x") = "" →
        pyIn (search_graph envEmpty.graph "x")
          "No institutional relationships found" = true)
    ∧ (to_natural_language (get_subgraph envEmpty.graph "x") ≠ "" →
        search_graph envEmpty.graph "x"
          = to_natural_language (get_subgraph envEmpty.graph "x")) :=
  search_graph_tool envEmpty "x"
